import Mathlib

/-!
Verification of the ds-coverage analysis pipeline (scanner, component API
analyzer, migration analyzer) against its natural-language specification.

The TypeScript sources are shallowly embedded: pure computations become Lean
functions; the JavaScript regular-expression engine (a Node built-in) is
modelled by explicit matcher functions / oracle parameters; `new RegExp`
failure (SyntaxError) and non-termination are made explicit in a `JsResult`
outcome type; the filesystem is modelled by an inductive directory tree and
`readdir`-style error conditions.

JavaScript strings are indexed by UTF-16 code units; the embedding uses Lean
strings viewed as lists of characters, and implements the JavaScript string
primitives (`split`, `trim`, `startsWith`, `slice`, `includes`, ...) by
structural recursion on the character list so that every definition reduces
in the kernel.  All concrete inputs used in theorems are ASCII, where the
two representations coincide.
-/

-- ============================================================
-- JavaScript string primitives
-- ============================================================

/-- Model of `String.prototype.split("\n")`: split into the (always
non-empty) list of chunks between newline characters. -/
def splitNlChars : List Char → List (List Char)
  | [] => [[]]
  | c :: rest =>
    if c = '\n' then [] :: splitNlChars rest
    else
      match splitNlChars rest with
      | [] => [[c]]
      | l :: ls => (c :: l) :: ls

/-- Model of `content.split("\n")` on strings. -/
def jsSplitNl (s : String) : List String := (splitNlChars s.data).map String.mk

/-- Model of `String.prototype.trim()`: strip leading and trailing
whitespace. -/
def jsTrim (s : String) : String :=
  String.mk (((s.data.dropWhile Char.isWhitespace).reverse.dropWhile Char.isWhitespace).reverse)

/-- Model of `String.prototype.startsWith`. -/
def jsStartsWith (s pre : String) : Bool := pre.data.isPrefixOf s.data

/-- Model of `String.prototype.endsWith`. -/
def jsEndsWith (s suf : String) : Bool := suf.data.isSuffixOf s.data

/-- Model of `String.prototype.slice(0, n)`. -/
def jsTake (s : String) (n : Nat) : String := String.mk (s.data.take n)

/-- Length of a string in characters (JS `String.prototype.length` counts
UTF-16 units; the two agree on ASCII). -/
def jsLength (s : String) : Nat := s.data.length

/-- Model of `String.prototype.includes`: substring containment. -/
def containsSubstr (s sub : String) : Bool :=
  (List.range (s.data.length + 1)).any (fun i => sub.data.isPrefixOf (s.data.drop i))

-- ============================================================
-- Scanner data model (src/scanner.ts = src/unnamed/part_002)
-- ============================================================

/-- Embeds the `Violation` record of `types.ts`: 1-based line and column, the
matched substring (source field `match`, renamed because `match` is a Lean
keyword) and the trimmed line context. -/
structure Violation where
  line : Nat
  column : Nat
  matchStr : String
  context : String
deriving Repr, DecidableEq, Inhabited

/-- Model of a compiled JavaScript regex with the `g` flag, as used by
`pattern.exec(line)`: given the line and the current `lastIndex`, return
`none` when `exec` returns `null` (no match at or after `lastIndex`, or
`lastIndex` beyond the line), else `some (index, matchedText)` for the first
match found searching from `lastIndex`. -/
def Matcher : Type := String → Nat → Option (Nat × String)

/-- Model of the JavaScript `RegExp` constructor: `none` models a thrown
`SyntaxError` (invalid pattern), `some m` a successfully compiled regex. -/
def RegexCompiler : Type := String → Option Matcher

/-- Outcome of running a piece of JavaScript code: it can diverge (`hang`),
throw an uncaught exception (`thrown`), or return a value (`ok`). -/
inductive JsResult (α : Type) where
  | hang : JsResult α
  | thrown (msg : String) : JsResult α
  | ok (a : α) : JsResult α
deriving Repr, DecidableEq

/-- Embeds the inner `while ((match = pattern.exec(line)) !== null)` loop of
`findViolations` (scanner lines 74-85).  JS semantics: after a successful
`exec`, `lastIndex` becomes `match.index + match[0].length`; the loop exits
when `exec` returns `null`.  `fuel` bounds the number of iterations so the
embedding is total; `none` models a loop that has not exited within `fuel`
iterations.  A deterministic matcher that repeats a `lastIndex` value loops
forever, so for matchers whose matches lie inside the line every terminating
run takes at most `jsLength line + 2` iterations. -/
def execAll (m : Matcher) (line : String) : Nat → Nat → Option (List (Nat × String))
  | 0, _ => none
  | fuel + 1, lastIndex =>
    match m line lastIndex with
    | none => some []
    | some (idx, s) =>
      (execAll m line fuel (idx + jsLength s)).map (fun rest => (idx, s) :: rest)

/-- Canonical fuel: sufficient for every terminating run of the exec loop on
`line` (see `execAll`). -/
def lineFuel (line : String) : Nat := jsLength line + 2

/-- Does the trimmed line start with a comment marker?  Mirrors scanner lines
64-68 (`trimmedLine.startsWith("//") || startsWith("/*") || startsWith("*")`). -/
def isCommentStart (trimmedLine : String) : Bool :=
  jsStartsWith trimmedLine "//" || jsStartsWith trimmedLine "/*" ||
    jsStartsWith trimmedLine "*"

/-- Per-line body of `findViolations` (scanner lines 58-85): skip comment-only
lines unless `scanComments`, then collect one `Violation` per regex match with
1-based line/column and the trimmed line (first 120 characters) as context.
`lineIdx` is the 0-based index of the first line of `lines`; `none` models
the non-terminating exec loop. -/
def findViolationsGo (m : Matcher) (scanComments : Bool) :
    Nat → List String → Option (List Violation)
  | _, [] => some []
  | lineIdx, line :: rest =>
    let trimmedLine := jsTrim line
    if !scanComments && isCommentStart trimmedLine then
      findViolationsGo m scanComments (lineIdx + 1) rest
    else
      match execAll m line (lineFuel line) 0 with
      | none => none
      | some ms =>
        (findViolationsGo m scanComments (lineIdx + 1) rest).map (fun vs =>
          ms.map (fun p =>
            { line := lineIdx + 1
              column := p.1 + 1
              matchStr := p.2
              context := jsTake trimmedLine 120 : Violation }) ++ vs)

/-- Embeds `findViolations` (scanner lines 49-88): compile the pattern
(`new RegExp(patternStr, "g")`, throwing on an invalid pattern), split the
content on `"\n"` and scan line by line. -/
def findViolations (compile : RegexCompiler) (content patternStr : String)
    (scanComments : Bool) : JsResult (List Violation) :=
  match compile patternStr with
  | none => .thrown "SyntaxError: Invalid regular expression"
  | some m =>
    match findViolationsGo m scanComments 0 (jsSplitNl content) with
    | none => .hang
    | some vs => .ok vs

-- ============================================================
-- Deduplication (scanner lines 99-110)
-- ============================================================

/-- One step of the `Map`-based merge loop of `deduplicateByLine`: if a
violation with the same line is already present, append `", " ++ matchStr` to
its match field; otherwise insert a copy at the end (JS `Map` preserves
insertion order). -/
def dedupInsert (acc : List Violation) (v : Violation) : List Violation :=
  if acc.any (fun w => w.line == v.line) then
    acc.map (fun w =>
      if w.line == v.line then { w with matchStr := w.matchStr ++ ", " ++ v.matchStr } else w)
  else
    acc ++ [v]

/-- Line-ordering relation used by the final
`sort((a, b) => a.line - b.line)` of `deduplicateByLine` (ascending, stable). -/
def lineLE (a b : Violation) : Prop := a.line ≤ b.line

instance : DecidableRel lineLE := fun a b => inferInstanceAs (Decidable (a.line ≤ b.line))

instance : IsTotal Violation lineLE := ⟨fun a b => Nat.le_total a.line b.line⟩

instance : IsTrans Violation lineLE := ⟨fun _ _ _ h h' => Nat.le_trans h h'⟩

/-- Embeds `deduplicateByLine` (scanner lines 99-110): merge violations by
line number into a `Map` (insertion order preserved), then sort the values
ascending by line. -/
def deduplicateByLine (violations : List Violation) : List Violation :=
  (violations.foldl dedupInsert []).insertionSort lineLE

-- ============================================================
-- File scanning (scanner lines 112-144)
-- ============================================================

/-- Embeds `ViolationCategoryConfig` of `config.ts` (the dashboard-only
`label`, `icon`, `color` fields are irrelevant to scanning and omitted; the
optional `deduplicateByLine` flag defaults to `false`). -/
structure ViolationCategoryConfig where
  enabled : Bool
  pattern : String
  deduplicateByLine : Bool
deriving Repr, DecidableEq

/-- Embeds the `flags` section of the config: the three flag patterns. -/
structure FlagsConfig where
  migrateSimple : String
  migrateComplex : String
  todo : String
deriving Repr, DecidableEq

/-- The scanner-relevant part of `DsCoverageConfig`: the ordered violation
category map (JS `Object.entries` order) and the flag patterns. -/
structure ScanConfig where
  violations : List (String × ViolationCategoryConfig)
  flags : FlagsConfig
deriving Repr, DecidableEq

/-- Embeds `FileReport` of `types.ts` for one scanned file. -/
structure FileReport where
  path : String
  violations : List (String × List Violation)
  flagsMigrateSimple : List Violation
  flagsMigrateComplex : List Violation
  flagsTodo : List Violation
  totalViolations : Nat
  totalFlags : Nat
deriving Repr, DecidableEq

/-- Embeds the category loop of `scanFileContent` (scanner lines 121-129):
for each enabled category run `findViolations` (comments skipped), optionally
deduplicate, and record the list under the category key.  A thrown
`SyntaxError` or a hang propagates (there is no `try`/`catch` in the
source). -/
def scanCategories (compile : RegexCompiler) (content : String) :
    List (String × ViolationCategoryConfig) → JsResult (List (String × List Violation))
  | [] => .ok []
  | (key, catConfig) :: rest =>
    if !catConfig.enabled then
      scanCategories compile content rest
    else
      match findViolations compile content catConfig.pattern false with
      | .hang => .hang
      | .thrown msg => .thrown msg
      | .ok vs =>
        let violations := if catConfig.deduplicateByLine then deduplicateByLine vs else vs
        match scanCategories compile content rest with
        | .hang => .hang
        | .thrown msg => .thrown msg
        | .ok tail => .ok ((key, violations) :: tail)

/-- Embeds `scanFileContent` (scanner lines 112-144): scan each enabled
violation category with comments skipped, then the three flag patterns with
`scanComments = true`; totals are the flat sums of list lengths. -/
def scanFileContent (compile : RegexCompiler) (content relativePath : String)
    (config : ScanConfig) : JsResult FileReport :=
  match scanCategories compile content config.violations with
  | .hang => .hang
  | .thrown msg => .thrown msg
  | .ok allViolations =>
    match findViolations compile content config.flags.migrateSimple true with
    | .hang => .hang
    | .thrown msg => .thrown msg
    | .ok migrateSimple =>
      match findViolations compile content config.flags.migrateComplex true with
      | .hang => .hang
      | .thrown msg => .thrown msg
      | .ok migrateComplex =>
        match findViolations compile content config.flags.todo true with
        | .hang => .hang
        | .thrown msg => .thrown msg
        | .ok todo =>
          .ok
            { path := relativePath
              violations := allViolations
              flagsMigrateSimple := migrateSimple
              flagsMigrateComplex := migrateComplex
              flagsTodo := todo
              totalViolations := (allViolations.map (fun p => p.2.length)).sum
              totalFlags := migrateSimple.length + migrateComplex.length + todo.length }

-- ============================================================
-- Concrete matchers used as witnesses for the regex-engine model
-- ============================================================

/-- Helper for `findSubstrFrom`: first index (counted from `idx`) at which
`pat` is a prefix of a suffix of `cs`. -/
def findSubstrAux (pat : List Char) : List Char → Nat → Option Nat
  | [], idx => if pat.isPrefixOf [] then some idx else none
  | c :: rest, idx =>
    if pat.isPrefixOf (c :: rest) then some idx else findSubstrAux pat rest (idx + 1)

/-- First index `i ≥ start` (in characters) at which `pat` occurs as a
substring of `s`; `none` when there is none or `start` is beyond the end. -/
def findSubstrFrom (s pat : String) (start : Nat) : Option Nat :=
  if start > jsLength s then none
  else findSubstrAux pat.data (s.data.drop start) start

/-- The compiled matcher of a regex that is a literal string (no
metacharacters): `exec` finds the first occurrence at or after `lastIndex`. -/
def literalMatcher (pat : String) : Matcher := fun line lastIndex =>
  (findSubstrFrom line pat lastIndex).map (fun i => (i, pat))

/-- The compiled matcher of the regular expression `a*` (valid, and able to
match the empty string): at any `lastIndex` within the line it greedily
matches the run of consecutive `a` characters starting there (possibly the
empty run); beyond the line `exec` returns `null`. -/
def aStarMatcher : Matcher := fun line lastIndex =>
  if lastIndex ≤ jsLength line then
    some (lastIndex, String.mk ((line.data.drop lastIndex).takeWhile (fun c => c == 'a')))
  else none

/-- A concrete instance of the `RegExp`-constructor model, consistent with
the real constructor on the patterns it is used at: the pattern
`"[invalid(regex"` fails to compile (it throws a SyntaxError in JavaScript);
the pattern `"a*"` compiles to `aStarMatcher`; the remaining patterns used in
the development are literal strings and compile to their literal matchers. -/
def demoCompile : RegexCompiler := fun pat =>
  if pat = "[invalid(regex" then none
  else if pat = "a*" then some aStarMatcher
  else some (literalMatcher pat)

-- ============================================================
-- Claims C1 and C3: the scanner's failure modes on its regex loop
-- ============================================================

/-- A scan configuration with one well-formed rule followed by the enabled
rule pattern `"[invalid(regex"` from the repository's own regression test. -/
def invalidRegexConfig : ScanConfig :=
  { violations :=
      [("colors", { enabled := true, pattern := "bg-gray", deduplicateByLine := false }),
       ("badPattern", { enabled := true, pattern := "[invalid(regex", deduplicateByLine := false })]
    flags :=
      { migrateSimple := "@ds-migrate: simple"
        migrateComplex := "@ds-migrate: complex"
        todo := "@ds-todo" } }

/-- Claim C1 (code-bug evidence): with an enabled rule whose pattern is the
invalid regex `"[invalid(regex"`, `scanFileContent` does not skip the rule
and continue — `new RegExp` inside `findViolations` throws a SyntaxError
with no surrounding `try`/`catch`, so the whole scan aborts and no
`FileReport` is produced for any rule.  This contradicts the specification
and the repository's own test `"handles invalid regex pattern gracefully"`. -/
theorem c1_invalid_regex_aborts_scan :
    scanFileContent demoCompile "const color = 1" "sample.tsx" invalidRegexConfig =
      .thrown "SyntaxError: Invalid regular expression" ∧
    ∀ r : FileReport,
      scanFileContent demoCompile "const color = 1" "sample.tsx" invalidRegexConfig ≠ .ok r := by
  have h1 : scanFileContent demoCompile "const color = 1" "sample.tsx" invalidRegexConfig =
      .thrown "SyntaxError: Invalid regular expression" := by decide
  refine ⟨h1, fun r h => ?_⟩
  rw [h1] at h
  cases h

/-- Claim C3 (code-bug evidence): on the valid pattern `a*` (which can match
the empty string) and the line `"b"`, `exec` returns a zero-length match at
index 0 without advancing `lastIndex`, so the
`while ((match = pattern.exec(line)) !== null)` loop of `findViolations`
never exits — for every iteration bound the loop is still running — and the
scan of a file containing that line diverges instead of being bounded by the
input length. -/
theorem c3_empty_match_loop_never_terminates :
    (∀ fuel : Nat, execAll aStarMatcher "b" fuel 0 = none) ∧
    findViolations demoCompile "b" "a*" false = .hang := by
  have key : ∀ fuel : Nat, execAll aStarMatcher "b" fuel 0 = none := by
    intro fuel
    induction fuel with
    | zero => rfl
    | succ n ih =>
      have hm : aStarMatcher "b" 0 = some (0, "") := by decide
      simp only [execAll, hm]
      have hz : jsLength "" = 0 := by decide
      rw [hz]
      simp [ih]
  exact ⟨key, by decide⟩

-- ============================================================
-- Claim C6: properties of deduplicateByLine
-- ============================================================

/-- Comma-join of a list of strings, as accumulated by the merge step
`existing.match = existing.match + ", " + v.match` of `deduplicateByLine`. -/
def commaJoin : List String → String
  | [] => ""
  | [x] => x
  | x :: rest => x ++ ", " ++ commaJoin rest

/-- The comma-joined concatenation, in input (first-seen) order, of the match
strings of all violations of `l` on line `n`. -/
def joinMatches (l : List Violation) (n : Nat) : String :=
  commaJoin ((l.filter (fun w => w.line == n)).map Violation.matchStr)

theorem strAppend_assoc (a b c : String) : (a ++ b) ++ c = a ++ (b ++ c) := by
  rcases a with ⟨a⟩
  rcases b with ⟨b⟩
  rcases c with ⟨c⟩
  show String.mk ((a ++ b) ++ c) = String.mk (a ++ (b ++ c))
  rw [List.append_assoc]

theorem commaJoin_append (ms : List String) (x : String) (h : ms ≠ []) :
    commaJoin (ms ++ [x]) = commaJoin ms ++ ", " ++ x := by
  induction ms with
  | nil => cases h rfl
  | cons y ys ih =>
    cases ys with
    | nil => rfl
    | cons z zs =>
      have step : commaJoin (y :: (z :: zs ++ [x])) = y ++ ", " ++ commaJoin (z :: zs ++ [x]) := rfl
      rw [List.cons_append, step, ih (by simp)]
      show _ = commaJoin (y :: z :: zs) ++ ", " ++ x
      have step2 : commaJoin (y :: z :: zs) = y ++ ", " ++ commaJoin (z :: zs) := rfl
      rw [step2]
      simp [strAppend_assoc]

/-- Invariant of the merge loop of `deduplicateByLine`: after processing the
prefix `p` of the input, the accumulator `acc` holds, for each line seen so
far, one violation whose match string is the comma-join of all match strings
seen on that line, and lines in `acc` are pairwise distinct. -/
def DedupInv (p acc : List Violation) : Prop :=
  (∀ w ∈ acc, w.matchStr = joinMatches p w.line ∧ p.any (fun x => x.line == w.line) = true) ∧
  (∀ v ∈ p, acc.any (fun w => w.line == v.line) = true) ∧
  acc.Pairwise (fun a b => a.line ≠ b.line)


theorem dedupInsert_inv {p acc : List Violation} (v : Violation) (h : DedupInv p acc) :
    DedupInv (p ++ [v]) (dedupInsert acc v) := by
  obtain ⟨h1, h2, h3⟩ := h
  by_cases hany : acc.any (fun w => w.line == v.line) = true
  · unfold dedupInsert
    rw [if_pos hany]
    have updLine : ∀ w : Violation,
        (if (w.line == v.line) = true then
          { w with matchStr := w.matchStr ++ ", " ++ v.matchStr } else w).line = w.line := by
      intro w
      by_cases hw : (w.line == v.line) = true <;> simp [hw]
    refine ⟨?_, ?_, ?_⟩
    · intro w' hw'
      obtain ⟨w, hw, rfl⟩ := List.mem_map.1 hw'
      by_cases hl : (w.line == v.line) = true
      · rw [if_pos hl]
        have hvw : v.line = w.line := (eq_of_beq hl).symm
        have hfil : (p ++ [v]).filter (fun x => x.line == w.line) =
            p.filter (fun x => x.line == w.line) ++ [v] := by
          rw [List.filter_append]
          simp [hvw]
        have hne : (p.filter (fun x => x.line == w.line)).map Violation.matchStr ≠ [] := by
          obtain ⟨x, hx, hxl⟩ := List.any_eq_true.1 (h1 w hw).2
          have hmem : x ∈ p.filter (fun y => y.line == w.line) := List.mem_filter.2 ⟨hx, hxl⟩
          simp only [ne_eq, List.map_eq_nil_iff]
          exact List.ne_nil_of_mem hmem
        refine ⟨?_, ?_⟩
        · show w.matchStr ++ ", " ++ v.matchStr = joinMatches (p ++ [v]) w.line
          rw [joinMatches, hfil, List.map_append, List.map_cons, List.map_nil,
            commaJoin_append _ _ hne, (h1 w hw).1, joinMatches]
        · rw [List.any_append]
          simp [(h1 w hw).2]
      · rw [if_neg hl]
        have hvw : ¬(v.line == w.line) = true := by
          intro hc
          exact hl (by simp [eq_of_beq hc])
        refine ⟨?_, ?_⟩
        · have hfil : (p ++ [v]).filter (fun x => x.line == w.line) =
              p.filter (fun x => x.line == w.line) := by
            rw [List.filter_append]
            simp [hvw]
          rw [joinMatches, hfil, ← joinMatches]
          exact (h1 w hw).1
        · rw [List.any_append]
          simp [(h1 w hw).2]
    · intro x hx
      have step : ∀ n : Nat, acc.any (fun w => w.line == n) = true →
          (acc.map (fun w => if (w.line == v.line) = true then
            { w with matchStr := w.matchStr ++ ", " ++ v.matchStr } else w)).any
              (fun w => w.line == n) = true := by
        intro n hn
        obtain ⟨w, hw, hwl⟩ := List.any_eq_true.1 hn
        refine List.any_eq_true.2 ⟨_, List.mem_map_of_mem _ hw, ?_⟩
        rw [updLine w]
        exact hwl
      rcases List.mem_append.1 hx with hx | hx
      · exact step _ (h2 x hx)
      · have hxv : x = v := by simpa using hx
        subst hxv
        exact step _ hany
    · rw [List.pairwise_map]
      apply h3.imp
      intro a b hab
      rw [updLine a, updLine b]
      exact hab
  · unfold dedupInsert
    rw [if_neg hany]
    have hnotin : ∀ w ∈ acc, ¬(w.line == v.line) = true := by
      intro w hw hc
      exact hany (List.any_eq_true.2 ⟨w, hw, hc⟩)
    refine ⟨?_, ?_, ?_⟩
    · intro w' hw'
      rcases List.mem_append.1 hw' with hw | hw
      · have hvw : ¬(v.line == w'.line) = true := by
          intro hc
          exact hnotin w' hw (by simp [(eq_of_beq hc).symm])
        refine ⟨?_, ?_⟩
        · have hfil : (p ++ [v]).filter (fun x => x.line == w'.line) =
              p.filter (fun x => x.line == w'.line) := by
            rw [List.filter_append]
            simp [hvw]
          rw [joinMatches, hfil, ← joinMatches]
          exact (h1 w' hw).1
        · rw [List.any_append]
          simp [(h1 w' hw).2]
      · have hxv : w' = v := by simpa using hw
        subst hxv
        have hfilp : p.filter (fun x => x.line == w'.line) = [] := by
          rw [List.filter_eq_nil_iff]
          intro x hx hline
          obtain ⟨w, hwmem, hwl⟩ := List.any_eq_true.1 (h2 x hx)
          have hwv : w.line = w'.line := (eq_of_beq hwl).trans
            (eq_of_beq hline)
          exact hnotin w hwmem (by simp [hwv])
        refine ⟨?_, ?_⟩
        · rw [joinMatches, List.filter_append, hfilp]
          simp [commaJoin]
        · rw [List.any_append]
          simp
    · intro x hx
      rcases List.mem_append.1 hx with hx | hx
      · rw [List.any_append]
        simp [h2 x hx]
      · have hxv : x = v := by simpa using hx
        subst hxv
        rw [List.any_append]
        simp
    · rw [List.pairwise_append]
      refine ⟨h3, List.pairwise_singleton _ _, ?_⟩
      intro a ha b hb
      have hbv : b = v := by simpa using hb
      subst hbv
      intro hc
      exact hnotin a ha (by simp [hc])

theorem foldl_dedupInsert_inv :
    ∀ (rest p acc : List Violation), DedupInv p acc →
      DedupInv (p ++ rest) (rest.foldl dedupInsert acc)
  | [], p, acc, h => by simpa using h
  | v :: rest, p, acc, h => by
    have step := foldl_dedupInsert_inv rest (p ++ [v]) (dedupInsert acc v) (dedupInsert_inv v h)
    simpa [List.append_assoc] using step

theorem dedupInv_base (l : List Violation) : DedupInv l (l.foldl dedupInsert []) := by
  have h0 : DedupInv [] [] := ⟨by simp, by simp, List.Pairwise.nil⟩
  simpa using foldl_dedupInsert_inv l [] [] h0

theorem foldl_dedupInsert_nodup :
    ∀ (xs acc : List Violation),
      (∀ x ∈ xs, acc.any (fun w => w.line == x.line) = false) →
      xs.Pairwise (fun a b => a.line ≠ b.line) →
      xs.foldl dedupInsert acc = acc ++ xs
  | [], acc, _, _ => by simp
  | x :: xs, acc, hnew, hpw => by
    have hx : acc.any (fun w => w.line == x.line) = false := hnew x (by simp)
    have h1 : dedupInsert acc x = acc ++ [x] := by
      unfold dedupInsert
      rw [if_neg (by simp [hx])]
    rw [List.foldl_cons, h1]
    have hnew' : ∀ y ∈ xs, (acc ++ [x]).any (fun w => w.line == y.line) = false := by
      intro y hy
      rw [List.any_append]
      have hxy : x.line ≠ y.line := (List.pairwise_cons.1 hpw).1 y hy
      simp [hnew y (List.mem_cons_of_mem _ hy), hxy]
    have hrec := foldl_dedupInsert_nodup xs (acc ++ [x]) hnew' (List.pairwise_cons.1 hpw).2
    rw [hrec, List.append_assoc]
    rfl

/-- Claim C6: for every violation list, `deduplicateByLine` merges all
matches on the same line into a single violation whose match string is the
comma-joined concatenation of the matched substrings in first-seen order,
every input line is represented, the output line numbers are strictly
ascending (hence unique), and the operation is idempotent. -/
theorem c6_deduplicateByLine_correct :
    ∀ l : List Violation,
      (∀ v ∈ deduplicateByLine l, v.matchStr = joinMatches l v.line) ∧
      (∀ v ∈ l, ∃ w ∈ deduplicateByLine l, w.line = v.line) ∧
      (deduplicateByLine l).Pairwise (fun a b => a.line < b.line) ∧
      deduplicateByLine (deduplicateByLine l) = deduplicateByLine l := by
  intro l
  obtain ⟨h1, h2, h3⟩ := dedupInv_base l
  have hperm : (deduplicateByLine l).Perm (l.foldl dedupInsert []) :=
    List.perm_insertionSort lineLE (l.foldl dedupInsert [])
  have hsorted : (deduplicateByLine l).Pairwise lineLE :=
    List.sorted_insertionSort lineLE (l.foldl dedupInsert [])
  have hne : (deduplicateByLine l).Pairwise (fun a b => a.line ≠ b.line) := by
    refine (hperm.pairwise_iff ?_).2 h3
    intro x y hxy
    exact hxy.symm
  refine ⟨?_, ?_, ?_, ?_⟩
  · intro v hv
    exact (h1 v (hperm.mem_iff.1 hv)).1
  · intro v hv
    obtain ⟨w, hw, hwl⟩ := List.any_eq_true.1 (h2 v hv)
    exact ⟨w, hperm.mem_iff.2 hw, eq_of_beq hwl⟩
  · exact (hsorted.and hne).imp (fun h => Nat.lt_of_le_of_ne h.1 h.2)
  · have hfold : (deduplicateByLine l).foldl dedupInsert [] = deduplicateByLine l := by
      have := foldl_dedupInsert_nodup (deduplicateByLine l) [] (by intro x _; simp) hne
      simpa using this
    calc deduplicateByLine (deduplicateByLine l)
        = ((deduplicateByLine l).foldl dedupInsert []).insertionSort lineLE := rfl
      _ = (deduplicateByLine l).insertionSort lineLE := by rw [hfold]
      _ = deduplicateByLine l := List.Sorted.insertionSort_eq hsorted

-- ============================================================
-- Claim C7: comment-only lines and flag rules
-- ============================================================

theorem findViolationsGo_no_comment_lines (m : Matcher) :
    ∀ (ls : List String) (i : Nat) (vs : List Violation),
      findViolationsGo m false i ls = some vs →
      ∀ v ∈ vs, ∃ j line, ls[j]? = some line ∧ v.line = i + j + 1 ∧
        isCommentStart (jsTrim line) = false
  | [], _, vs, h => by
    intro v hv
    simp only [findViolationsGo, Option.some.injEq] at h
    subst h
    cases hv
  | line :: rest, i, vs, h => by
    intro v hv
    by_cases hc : isCommentStart (jsTrim line) = true
    · rw [findViolationsGo] at h
      simp only [Bool.not_false, Bool.true_and, hc, if_pos] at h
      obtain ⟨j, l, hget, hline, hcom⟩ :=
        findViolationsGo_no_comment_lines m rest (i + 1) vs h v hv
      refine ⟨j + 1, l, ?_, ?_, hcom⟩
      · simpa using hget
      · omega
    · rw [findViolationsGo] at h
      simp only [Bool.not_false, Bool.true_and, hc, if_neg, Bool.false_eq_true,
        not_false_eq_true] at h
      rcases hexec : execAll m line (lineFuel line) 0 with _ | ms
      · rw [hexec] at h
        cases h
      · rw [hexec] at h
        rcases hrec : findViolationsGo m false (i + 1) rest with _ | vs'
        · rw [hrec] at h
          cases h
        · rw [hrec] at h
          simp only [Option.map, Option.some.injEq] at h
          subst h
          rcases List.mem_append.1 hv with hv | hv
          · obtain ⟨p, _, rfl⟩ := List.mem_map.1 hv
            refine ⟨0, line, by simp, by simp, by simpa using hc⟩
          · obtain ⟨j, l, hget, hline, hcom⟩ :=
              findViolationsGo_no_comment_lines m rest (i + 1) vs' hrec v hv
            refine ⟨j + 1, l, by simpa using hget, by omega, hcom⟩

/-- A configuration in which the same literal pattern is both an ordinary
violation rule and the `@ds-todo` flag pattern. -/
def flagDemoConfig : ScanConfig :=
  { violations := [("colors", { enabled := true, pattern := "@ds-todo", deduplicateByLine := false })]
    flags :=
      { migrateSimple := "@ds-migrate: simple"
        migrateComplex := "@ds-migrate: complex"
        todo := "@ds-todo" } }

/-- Claim C7: ordinary rules (scanned with `scanComments = false`) never
produce a violation on a line whose trimmed content starts with a comment
marker, for every compiled pattern and every content; and the flag rules,
which `scanFileContent` runs with `scanComments = true`, do match inside
comment lines: on the file `"// @ds-todo: x"` the identical pattern yields no
ordinary violation but one `@ds-todo` flag violation on the comment line. -/
theorem c7_comment_lines_skipped_for_rules_not_flags :
    (∀ (compile : RegexCompiler) (content patternStr : String) (vs : List Violation),
      findViolations compile content patternStr false = .ok vs →
      ∀ v ∈ vs, ∃ line, (jsSplitNl content)[v.line - 1]? = some line ∧
        isCommentStart (jsTrim line) = false) ∧
    scanFileContent demoCompile "// @ds-todo: x" "sample.tsx" flagDemoConfig =
      .ok
        { path := "sample.tsx"
          violations := [("colors", [])]
          flagsMigrateSimple := []
          flagsMigrateComplex := []
          flagsTodo := [{ line := 1, column := 4, matchStr := "@ds-todo", context := "// @ds-todo: x" }]
          totalViolations := 0
          totalFlags := 1 } := by
  constructor
  · intro compile content patternStr vs h v hv
    rw [findViolations] at h
    split at h
    · cases h
    · split at h
      · cases h
      · rename_i vs' hgo
        simp only [JsResult.ok.injEq] at h
        subst h
        obtain ⟨j, l, hget, hline, hcom⟩ :=
          findViolationsGo_no_comment_lines _ (jsSplitNl content) 0 vs' hgo v hv
        refine ⟨l, ?_, hcom⟩
        have hj : v.line - 1 = j := by omega
        rw [hj]
        exact hget
  · decide

/-- Witness for the universal part of C7 at a concrete scan: the file
`"// bg-gray\nbg-gray"` scanned for the literal pattern `"bg-gray"` yields a
single violation, and it sits on line 2, which is not a comment line. -/
theorem c7_witness :
    ∃ line, (jsSplitNl "// bg-gray\nbg-gray")[2 - 1]? = some line ∧
      isCommentStart (jsTrim line) = false :=
  c7_comment_lines_skipped_for_rules_not_flags.1 demoCompile "// bg-gray\nbg-gray" "bg-gray"
    [{ line := 2, column := 1, matchStr := "bg-gray", context := "bg-gray" }]
    (by decide)
    { line := 2, column := 1, matchStr := "bg-gray", context := "bg-gray" }
    (by decide)

-- ============================================================
-- Claim C2: file discovery and the scan root (scanner lines 17-43, 181-210)
-- ============================================================

/-- A directory tree, modelling what the filesystem holds at a path. -/
inductive FsNode where
  | file (content : String) : FsNode
  | dir (entries : List (String × FsNode)) : FsNode

/-- The error conditions with which `node:fs` `readdir` rejects when given a
bad path: the path does not exist (`ENOENT`) or is not a directory
(`ENOTDIR`).  Both carry a distinct `code` property identifying them. -/
inductive FsError where
  | enoent : FsError
  | enotdir : FsError
deriving Repr, DecidableEq

/-- Index of the last `.` in a character list, if any. -/
def lastDotIdx : List Char → Option Nat
  | [] => none
  | c :: rest =>
    match lastDotIdx rest with
    | some i => some (i + 1)
    | none => if c = '.' then some 0 else none

/-- Model of `node:path.extname` on a bare file name: the suffix from the
last dot, or `""` when there is no dot or the only dot leads the name. -/
def extname (name : String) : String :=
  match lastDotIdx name.data with
  | none => ""
  | some 0 => ""
  | some i => String.mk (name.data.drop i)

/-- POSIX join of a relative base and an entry name, as produced by
`join`/`relative` in the `walk` recursion of `discoverFiles`. -/
def joinRel (base name : String) : String :=
  if base = "" then name else base ++ "/" ++ name

/-- Embeds the `walk` recursion of `discoverFiles` (scanner lines 24-39): for
each directory entry compute its path relative to the scan root, skip it when
any exclusion substring occurs in that relative path, recurse into
directories, and collect files whose extension is in the allow-list.  The
model pairs each discovered relative path with the file's content (the
subsequent batch `readFile` of `scan` always succeeds on discovered files). -/
def walkEntries (extensions exclude : List String) :
    String → List (String × FsNode) → List (String × String)
  | _, [] => []
  | base, (name, node) :: rest =>
    (if exclude.any (fun exc => containsSubstr (joinRel base name) exc) then []
     else
       match node with
       | .dir es => walkEntries extensions exclude (joinRel base name) es
       | .file c =>
         if extensions.contains (extname name) then [(joinRel base name, c)] else [])
    ++ walkEntries extensions exclude base rest

/-- Embeds `discoverFiles` (scanner lines 17-43): the first `readdir` is on
the scan root itself, so a missing root rejects with `ENOENT` and a
non-directory root rejects with `ENOTDIR`; otherwise the recursive walk
collects the files. -/
def discoverFiles (root : Option FsNode) (extensions exclude : List String) :
    Except FsError (List (String × String)) :=
  match root with
  | none => .error .enoent
  | some (.file _) => .error .enotdir
  | some (.dir entries) => .ok (walkEntries extensions exclude "" entries)

/-- The scan-level part of `DsCoverageConfig`: scan directory, extension
allow-list, exclusion substrings, violation rules and flag patterns. -/
structure DsConfig where
  scanDir : String
  extensions : List String
  exclude : List String
  violations : List (String × ViolationCategoryConfig)
  flags : FlagsConfig

/-- The scanner part of a `DsConfig`. -/
def DsConfig.scanConfig (c : DsConfig) : ScanConfig :=
  { violations := c.violations, flags := c.flags }

/-- Embeds the `ScanResult` record returned by `scan`. -/
structure ScanResult where
  fileReports : List FileReport
  fileContents : List (String × String)
  totalFiles : Nat

/-- The per-file report loop of `scan` (scanner lines 198-203). -/
def scanReports (compile : RegexCompiler) (cfg : ScanConfig) :
    List (String × String) → JsResult (List FileReport)
  | [] => .ok []
  | (relPath, content) :: rest =>
    match scanFileContent compile content relPath cfg with
    | .hang => .hang
    | .thrown msg => .thrown msg
    | .ok r =>
      match scanReports compile cfg rest with
      | .hang => .hang
      | .thrown msg => .thrown msg
      | .ok rs => .ok (r :: rs)

/-- Embeds `scan` (scanner lines 181-210): discover files under the scan
root (a rejected `readdir` propagates to the caller unmodified, before any
scanning), then scan every discovered file.  `rootFs` is what the filesystem
holds at `join(projectRoot, config.scanDir)`. -/
def scan (compile : RegexCompiler) (rootFs : Option FsNode) (config : DsConfig) :
    Except FsError (JsResult ScanResult) :=
  match discoverFiles rootFs config.extensions config.exclude with
  | .error e => .error e
  | .ok files =>
    .ok
      (match scanReports compile config.scanConfig files with
       | .hang => .hang
       | .thrown msg => .thrown msg
       | .ok reports =>
         .ok { fileReports := reports, fileContents := files, totalFiles := files.length })

/-- Claim C2: when the scan root does not exist or is not a directory, `scan`
fails with the distinct, identifiable filesystem error condition of the first
`readdir` (`ENOENT` or `ENOTDIR`), surfaced to the caller; it never returns a
successful (e.g. zero-file) result for such a root. -/
theorem c2_bad_root_is_distinct_error :
    ∀ (compile : RegexCompiler) (config : DsConfig) (root : Option FsNode),
      (root = none ∨ ∃ c, root = some (.file c)) →
      (scan compile root config = .error .enoent ∨
        scan compile root config = .error .enotdir) ∧
      ∀ r, scan compile root config ≠ .ok r := by
  intro compile config root hroot
  rcases hroot with rfl | ⟨c, rfl⟩
  · exact ⟨Or.inl rfl, fun r h => by cases h⟩
  · exact ⟨Or.inr rfl, fun r h => by cases h⟩

/-- A minimal concrete configuration for exercising `scan`. -/
def demoDsConfig : DsConfig :=
  { scanDir := "src"
    extensions := [".tsx"]
    exclude := ["node_modules/"]
    violations := [("colors", { enabled := true, pattern := "bg-gray", deduplicateByLine := false })]
    flags :=
      { migrateSimple := "@ds-migrate: simple"
        migrateComplex := "@ds-migrate: complex"
        todo := "@ds-todo" } }

/-- Witness for C2: a missing scan root rejects with `ENOENT` and never
yields a successful scan result. -/
theorem c2_bad_root_witness :
    (scan demoCompile none demoDsConfig = .error .enoent ∨
      scan demoCompile none demoDsConfig = .error .enotdir) ∧
    ∀ r, scan demoCompile none demoDsConfig ≠ .ok r :=
  c2_bad_root_is_distinct_error demoCompile demoDsConfig none (Or.inl rfl)

-- ============================================================
-- Component API analyzer (src/component-analyzer.ts)
-- ============================================================

/-- Embeds the `api` section of `ComponentApiConfig` in `config.ts`. -/
structure ApiRules where
  requireCVA : Bool
  requireRadix : Bool
  expectedProps : List String
  forbiddenProps : List String
  expectedSizes : List String
  forbiddenSizes : List String
  legacyVariantValues : List String
deriving Repr, DecidableEq

/-- Embeds the `scoring` weights of `ComponentApiConfig`.  The TypeScript
type is `number`; the claims under study concern sign and magnitude, so the
weights are modelled as integers (integer-valued weights add exactly in
IEEE-754 doubles in the ranges involved). -/
structure ScoringWeights where
  usesCVA : Int
  correctNaming : Int
  correctSizes : Int
  hasClassName : Int
  usesCompoundVariants : Int
  hasAsChild : Int
  usesRadix : Int
deriving Repr, DecidableEq

/-- Embeds `ComponentApiConfig` of `config.ts` (the dashboard-only
`showApiRedesignTab` is omitted). -/
structure ComponentApiConfig where
  enabled : Bool
  directories : List String
  primaryDirectory : String
  legacyDirectories : List String
  api : ApiRules
  scoring : ScoringWeights

/-- The results of the Node `RegExp` probes that `analyzeComponent` runs over
the raw file content.  The JS regex engine is an external Node built-in, so
it is modelled as this oracle record; each field documents the exact probe:
`exportFnConstName` is the first capture of
`export\s+(?:function|const)\s+(\w+)`; `exportBraceName` the first capture of
`export\s+\{\s*(\w+)`; `cvaCall` tests `\bcva\s*\(`; `cvaImport` tests
`from\s+["\x27]class-variance-authority["\x27]`; `radixImport` tests
`from\s+["\x27](?:@radix-ui|radix-ui)`; `classNameProp` tests
`\bclassName[\s?:,})]`; `asChildWord` tests `\basChild\b`;
`compoundVariantsText` tests the literal `compoundVariants`;
`variantsBlockKeys` holds the raw matches of `^\s*(\w+)\s*:` (multiline)
inside the first `variants\s*:\s*\{...\}` block, if that block matched;
`sizeBlockKeys` the raw matches of the key pattern inside the first
`size\s*:\s*\{...\}` block; `propBlockKeys propName` the same for the
configured prop name's block.  On the empty content every probe yields
`none`/`false`. -/
structure ContentProbes where
  exportFnConstName : Option String
  exportBraceName : Option String
  cvaCall : Bool
  cvaImport : Bool
  radixImport : Bool
  classNameProp : Bool
  asChildWord : Bool
  compoundVariantsText : Bool
  variantsBlockKeys : Option (List String)
  sizeBlockKeys : Option (List String)
  propBlockKeys : String → Option (List String)

/-- Embeds `ComponentApiIssue` of `types.ts`. -/
structure ComponentApiIssue where
  type : String
  severity : String
  message : String
deriving Repr, DecidableEq

/-- Embeds the `tokenCoverage` record of `ComponentApiReport`.  The score is
modelled as an exact rational; the JS computation uses doubles, which agree
with the rational value up to representation of the final division. -/
structure TokenCoverage where
  score : Rat
  totalLines : Nat
  violationLines : Nat
  violations : List (String × Nat)
  totalViolations : Nat
deriving Repr, DecidableEq

/-- Embeds `ComponentApiReport` of `types.ts`. -/
structure ComponentApiReport where
  path : String
  name : String
  location : String
  usesCVA : Bool
  usesRadix : Bool
  hasClassName : Bool
  hasAsChild : Bool
  usesCompoundVariants : Bool
  variantProps : List String
  sizeValues : List String
  variantValues : List String
  issues : List ComponentApiIssue
  complianceScore : Int
  tokenCoverage : TokenCoverage
deriving Repr, DecidableEq

/-- Join a list of strings with a separator (JS `Array.prototype.join`). -/
def joinWith (sep : String) : List String → String
  | [] => ""
  | [x] => x
  | x :: rest => x ++ sep ++ joinWith sep rest

/-- One guarded `if (cond) score += w;` statement of the compliance-score
block (component-analyzer.ts lines 169-180). -/
def addIf (b : Bool) (acc w : Int) : Int := if b then acc + w else acc

/-- One guarded `issues.push(...)` statement of the issue-detection block
(component-analyzer.ts lines 101-167). -/
def appendIf (b : Bool) (xs ys : List ComponentApiIssue) : List ComponentApiIssue :=
  if b then xs ++ ys else xs

/-- JS `.replace(":", "")`: remove the first colon only. -/
def removeFirstColon : List Char → List Char
  | [] => []
  | c :: rest => if c = ':' then rest else c :: removeFirstColon rest

/-- Cleaning of a raw variant-key match (`p.trim().replace(":", "").trim()`). -/
def cleanVariantKey (p : String) : String :=
  jsTrim (String.mk (removeFirstColon (jsTrim p).data))

/-- Cleaning of a raw size/value-key match
(`k.trim().replace(/["\x27:]/g, "").trim()`). -/
def cleanSizeKey (k : String) : String :=
  jsTrim (String.mk ((jsTrim k).data.filter
    (fun c => !(c == '"' || c == Char.ofNat 39 || c == ':'))))

/-- General split of a character list on a separator character. -/
def splitCharList (sep : Char) : List Char → List (List Char)
  | [] => [[]]
  | c :: rest =>
    if c = sep then [] :: splitCharList sep rest
    else
      match splitCharList sep rest with
      | [] => [[c]]
      | l :: ls => (c :: l) :: ls

/-- JS `s.split("/").pop()` (the split is never empty, so `pop` is total). -/
def lastSegment (s : String) : String :=
  match (splitCharList '/' s.data).getLast? with
  | some l => String.mk l
  | none => ""

/-- JS `.replace(/\.tsx?$/, "")`: strip a trailing `.tsx` or `.ts`. -/
def stripTsxSuffix (s : String) : String :=
  if jsEndsWith s ".tsx" then String.mk (s.data.take (s.data.length - 4))
  else if jsEndsWith s ".ts" then String.mk (s.data.take (s.data.length - 3))
  else s

/-- The location-classification loop of `analyzeComponent` (lines 27-33):
first configured directory that prefixes the relative path wins; the primary
directory maps to `"primary"`, any other to its last path segment (with one
trailing slash stripped), falling back to `"legacy"` when that segment is
empty; no match yields `"other"`. -/
def locationOfGo (relativePath primaryDirectory : String) : List String → String
  | [] => "other"
  | dir :: rest =>
    if jsStartsWith relativePath dir then
      if dir = primaryDirectory then "primary"
      else
        let stripped := if jsEndsWith dir "/" then String.mk (dir.data.take (dir.data.length - 1)) else dir
        let seg := lastSegment stripped
        if seg = "" then "legacy" else seg
    else locationOfGo relativePath primaryDirectory rest

/-- Location classification over the configured directories. -/
def locationOf (relativePath : String) (cfg : ComponentApiConfig) : String :=
  locationOfGo relativePath cfg.primaryDirectory cfg.directories

/-- Barrel-file check of `analyzeComponent` line 37. -/
def isIndexFile (relativePath : String) : Bool :=
  jsEndsWith relativePath "index.ts" || jsEndsWith relativePath "index.tsx"

/-- Helper-file check of `analyzeComponent` line 38, the regex
`/\/(helpers|types|utils|constants)\.(ts|tsx)$/` expanded into its eight
literal suffixes. -/
def isHelperFile (relativePath : String) : Bool :=
  ["/helpers.ts", "/helpers.tsx", "/types.ts", "/types.tsx",
   "/utils.ts", "/utils.tsx", "/constants.ts", "/constants.tsx"].any
    (fun suf => jsEndsWith relativePath suf)

/-- Embeds `analyzeComponent` (component-analyzer.ts lines 21-204): location
classification and skip checks, component-name extraction with filename
fallback, feature detection, variant/size/value extraction with the source's
cleaning loops, issue detection, and the weighted compliance score capped by
`Math.min(100, score)`. -/
def analyzeComponent (probes : ContentProbes) (relativePath : String)
    (apiConfig : ComponentApiConfig) : Option ComponentApiReport :=
  if locationOf relativePath apiConfig = "other" then none
  else if isIndexFile relativePath then none
  else if isHelperFile relativePath then none
  else
    let location := locationOf relativePath apiConfig
    let name :=
      match probes.exportFnConstName with
      | some n => n
      | none =>
        match probes.exportBraceName with
        | some n => n
        | none =>
          let base := stripTsxSuffix (lastSegment relativePath)
          if base = "" then "Unknown" else base
    let usesCVA := probes.cvaCall || probes.cvaImport
    let usesRadix := probes.radixImport
    let hasClassName := probes.classNameProp
    let hasAsChild := probes.asChildWord
    let usesCompoundVariants := probes.compoundVariantsText
    let variantProps :=
      match probes.variantsBlockKeys with
      | none => []
      | some raws =>
        raws.foldl (fun acc p =>
          let clean := cleanVariantKey p
          if clean ≠ "" ∧ clean ∉ ["class", "className"] then acc ++ [clean] else acc) []
    let sizeValues :=
      match probes.sizeBlockKeys with
      | none => []
      | some raws =>
        raws.foldl (fun acc k =>
          let clean := cleanSizeKey k
          if clean ≠ "" then acc ++ [clean] else acc) []
    let propsToSearch := apiConfig.api.expectedProps ++ apiConfig.api.forbiddenProps
    let variantValues :=
      propsToSearch.foldl (fun acc propName =>
        if propName = "size" then acc
        else
          match probes.propBlockKeys propName with
          | none => acc
          | some keys =>
            keys.foldl (fun acc2 k =>
              let clean := cleanSizeKey k
              if clean ≠ "" then acc2 ++ [clean] else acc2) acc) []
    let expected :=
      joinWith "\x27 + \x27" (apiConfig.api.expectedProps.filter (fun p => p ≠ "size"))
    let badSizes := sizeValues.filter (fun v => apiConfig.api.forbiddenSizes.contains v)
    let badVariants := variantValues.filter (fun v => apiConfig.api.legacyVariantValues.contains v)
    let issues :=
      appendIf
        (!usesCVA && apiConfig.api.requireCVA &&
          jsStartsWith relativePath apiConfig.primaryDirectory) []
        [{ type := "cva", severity := "error",
           message := "Component should use CVA for variant management" }]
    let issues :=
      appendIf (!hasClassName) issues
        [{ type := "props", severity := "warning",
           message := "Missing className prop for composition" }]
    let issues :=
      issues ++ (variantProps.filter (fun p => apiConfig.api.forbiddenProps.contains p)).map
        (fun p =>
          { type := "naming", severity := "error",
            message := "Uses \x27" ++ p ++ "\x27 prop — should use \x27" ++ expected ++
              "\x27 pattern" })
    let issues :=
      appendIf
        (usesCVA &&
          (apiConfig.api.expectedProps.filter (fun p => p ≠ "size")).all
            (fun p => variantProps.contains p) &&
          !usesCompoundVariants) issues
        [{ type := "compound", severity := "warning",
           message := "Has " ++
             joinWith " + " (apiConfig.api.expectedProps.filter (fun p => p ≠ "size")) ++
             " but no compoundVariants" }]
    let issues :=
      appendIf (badSizes.length > 0) issues
        [{ type := "sizes", severity := "error",
           message := "Size values use abbreviations: " ++ joinWith ", " badSizes ++
             " — should use full words (" ++
             joinWith ", " apiConfig.api.expectedSizes ++ ")" }]
    let issues :=
      appendIf (badVariants.length > 0) issues
        [{ type := "variants", severity := "error",
           message := "Uses legacy variant values: " ++ joinWith ", " badVariants }]
    let w := apiConfig.scoring
    let score := addIf usesCVA 0 w.usesCVA
    let score :=
      addIf (!(variantProps.any (fun p => apiConfig.api.forbiddenProps.contains p)))
        score w.correctNaming
    let score := addIf (sizeValues.length == 0 || badSizes.length == 0) score w.correctSizes
    let score := addIf hasClassName score w.hasClassName
    let score := addIf (usesCompoundVariants || !usesCVA) score w.usesCompoundVariants
    let score := addIf (hasAsChild || !usesRadix) score w.hasAsChild
    let score :=
      addIf (usesRadix || !(jsStartsWith relativePath apiConfig.primaryDirectory))
        score w.usesRadix
    some
      { path := relativePath
        name := name
        location := location
        usesCVA := usesCVA
        usesRadix := usesRadix
        hasClassName := hasClassName
        hasAsChild := hasAsChild
        usesCompoundVariants := usesCompoundVariants
        variantProps := variantProps
        sizeValues := sizeValues
        variantValues := variantValues
        issues := issues
        complianceScore := min 100 score
        tokenCoverage :=
          { score := 100, totalLines := 0, violationLines := 0, violations := [],
            totalViolations := 0 } }

-- ============================================================
-- Claims C4 and C5: compliance score bounds and the skip policy
-- ============================================================

/-- Probe results for the empty file content: no regex matches anything. -/
def emptyProbes : ContentProbes :=
  { exportFnConstName := none
    exportBraceName := none
    cvaCall := false
    cvaImport := false
    radixImport := false
    classNameProp := false
    asChildWord := false
    compoundVariantsText := false
    variantsBlockKeys := none
    sizeBlockKeys := none
    propBlockKeys := fun _ => none }

/-- A component-analysis configuration whose `correctNaming` weight is
negative (weights are arbitrary `number`s in the config schema). -/
def negWeightConfig : ComponentApiConfig :=
  { enabled := true
    directories := ["ui/"]
    primaryDirectory := "ui/"
    legacyDirectories := []
    api :=
      { requireCVA := true, requireRadix := false, expectedProps := ["variant", "size"],
        forbiddenProps := ["type"], expectedSizes := ["small"], forbiddenSizes := ["sm"],
        legacyVariantValues := ["primary"] }
    scoring :=
      { usesCVA := 0, correctNaming := -50, correctSizes := 0, hasClassName := 0,
        usesCompoundVariants := 0, hasAsChild := 0, usesRadix := 0 } }

/-- The same configuration with the usual non-negative weights. -/
def nonnegWeightConfig : ComponentApiConfig :=
  { enabled := true
    directories := ["ui/"]
    primaryDirectory := "ui/"
    legacyDirectories := []
    api :=
      { requireCVA := true, requireRadix := false, expectedProps := ["variant", "size"],
        forbiddenProps := ["type"], expectedSizes := ["small"], forbiddenSizes := ["sm"],
        legacyVariantValues := ["primary"] }
    scoring :=
      { usesCVA := 30, correctNaming := 20, correctSizes := 15, hasClassName := 10,
        usesCompoundVariants := 10, hasAsChild := 5, usesRadix := 10 } }

/-- Claim C4 counterexample: with a negative configured weight the computed
compliance score is `-50`, outside `[0, 100]` — `Math.min(100, score)` caps
only from above, there is no lower clamp at 0. -/
theorem c4_counterexample_negative_score :
    (analyzeComponent emptyProbes "ui/button.tsx" negWeightConfig).map
      (fun r => r.complianceScore) = some (-50) ∧ ¬(0 ≤ (-50 : Int)) := by
  constructor
  · decide
  · decide

theorem addIf_nonneg (b : Bool) {acc w : Int} (ha : 0 ≤ acc) (hw : 0 ≤ w) :
    0 ≤ addIf b acc w := by
  unfold addIf
  split <;> omega

/-- Claim C4 as amended: the compliance score never exceeds 100, and it lies
in `[0, 100]` whenever every configured scoring weight is non-negative; with
a negative weight it can drop below 0 (see the counterexample). -/
theorem c4_score_bounds :
    ∀ (probes : ContentProbes) (relativePath : String) (cfg : ComponentApiConfig)
      (r : ComponentApiReport),
      analyzeComponent probes relativePath cfg = some r →
      r.complianceScore ≤ 100 ∧
      (0 ≤ cfg.scoring.usesCVA → 0 ≤ cfg.scoring.correctNaming →
       0 ≤ cfg.scoring.correctSizes → 0 ≤ cfg.scoring.hasClassName →
       0 ≤ cfg.scoring.usesCompoundVariants → 0 ≤ cfg.scoring.hasAsChild →
       0 ≤ cfg.scoring.usesRadix → 0 ≤ r.complianceScore) := by
  intro probes relativePath cfg r h
  simp only [analyzeComponent] at h
  split at h
  · cases h
  · split at h
    · cases h
    · split at h
      · cases h
      · simp only [Option.some.injEq] at h
        subst h
        dsimp only
        refine ⟨min_le_left _ _, ?_⟩
        intro h1 h2 h3 h4 h5 h6 h7
        rw [le_min_iff]
        exact ⟨by norm_num,
          addIf_nonneg _ (addIf_nonneg _ (addIf_nonneg _ (addIf_nonneg _ (addIf_nonneg _
            (addIf_nonneg _ (addIf_nonneg _ le_rfl h1) h2) h3) h4) h5) h6) h7⟩

/-- Witness for the amended C4: on a concrete analyzed file with all weights
non-negative the score lies in `[0, 100]`. -/
theorem c4_score_bounds_witness :
    (analyzeComponent emptyProbes "ui/button.tsx" nonnegWeightConfig).elim False
      (fun r => r.complianceScore ≤ 100 ∧ 0 ≤ r.complianceScore) := by
  have hs : (analyzeComponent emptyProbes "ui/button.tsx" nonnegWeightConfig).isSome = true := by
    decide
  obtain ⟨r, hr⟩ := Option.isSome_iff_exists.1 hs
  rw [hr]
  have hb := c4_score_bounds emptyProbes "ui/button.tsx" nonnegWeightConfig r hr
  exact ⟨hb.1, hb.2 (by decide) (by decide) (by decide) (by decide) (by decide) (by decide)
    (by decide)⟩

/-- Claim C5 counterexample: the empty file exports nothing (no exported
function, const, or named export is found), lies under the configured `ui/`
directory, yet `analyzeComponent` does not skip it — it produces a report
named from the file name. -/
theorem c5_counterexample_no_export_still_reported :
    emptyProbes.exportFnConstName = none ∧ emptyProbes.exportBraceName = none ∧
    (analyzeComponent emptyProbes "ui/button.tsx" nonnegWeightConfig).isSome = true ∧
    (analyzeComponent emptyProbes "ui/button.tsx" nonnegWeightConfig).map
      (fun r => r.name) = some "button" := by
  refine ⟨rfl, rfl, by decide, by decide⟩

/-- Claim C5 as amended: `analyzeComponent` skips a file exactly when its
location classifies as `"other"`, or it is an `index.ts(x)` barrel file, or a
`helpers/types/utils/constants` helper file; the presence of exports is not a
skip condition — when no export is found the report is still produced, with
the component name falling back to the file name stripped of its `.tsx`/`.ts`
suffix (or `"Unknown"` when that is empty). -/
theorem c5_skip_conditions :
    ∀ (probes : ContentProbes) (relativePath : String) (cfg : ComponentApiConfig),
      (analyzeComponent probes relativePath cfg = none ↔
        (locationOf relativePath cfg = "other" ∨ isIndexFile relativePath = true ∨
          isHelperFile relativePath = true)) ∧
      (probes.exportFnConstName = none → probes.exportBraceName = none →
        ∀ r, analyzeComponent probes relativePath cfg = some r →
          r.name = (if stripTsxSuffix (lastSegment relativePath) = "" then "Unknown"
                    else stripTsxSuffix (lastSegment relativePath))) := by
  intro probes relativePath cfg
  constructor
  · unfold analyzeComponent
    split_ifs <;> simp [*]
  · intro he1 he2 r hr
    simp only [analyzeComponent, he1, he2] at hr
    split at hr
    · cases hr
    · split at hr
      · cases hr
      · split at hr
        · cases hr
        · simp only [Option.some.injEq] at hr
          subst hr
          rfl

/-- Witness for the amended C5: the export-free file `ui/card.tsx` is
analyzed and its report is named from the file name. -/
theorem c5_skip_conditions_witness :
    (analyzeComponent emptyProbes "ui/card.tsx" nonnegWeightConfig).elim False
      (fun r => r.name = "card") := by
  have hs : (analyzeComponent emptyProbes "ui/card.tsx" nonnegWeightConfig).isSome = true := by
    decide
  obtain ⟨r, hr⟩ := Option.isSome_iff_exists.1 hs
  rw [hr]
  have hn := (c5_skip_conditions emptyProbes "ui/card.tsx" nonnegWeightConfig).2 rfl rfl r hr
  show r.name = "card"
  rw [hn]
  decide

-- ============================================================
-- Claim C10: analyzeComponents and the .tsx filter
-- ============================================================

/-- Embeds `ComponentApiSummary` of `types.ts`.  Averages are modelled as
exact rationals/integers via `jsRound` below. -/
structure ComponentApiSummary where
  totalComponents : Nat
  byLocation : List (String × Nat)
  usesCVA : Nat
  usesRadix : Nat
  hasClassName : Nat
  hasAsChild : Nat
  usesCompoundVariants : Nat
  correctApiNaming : Nat
  correctSizeValues : Nat
  avgComplianceScore : Int
  compliantCount : Nat
  avgTokenScore : Rat
  tokenCompliantCount : Nat
deriving Repr, DecidableEq

/-- Model of `Math.round`: round half toward positive infinity. -/
def jsRound (q : Rat) : Int := (q + 1 / 2).floor

/-- One step of the `byLocation[c.location] = (byLocation[c.location] || 0) + 1`
accumulation, on an insertion-ordered association list (JS object keys). -/
def bumpCount (acc : List (String × Nat)) (key : String) : List (String × Nat) :=
  if acc.any (fun p => p.1 == key) then
    acc.map (fun p => if p.1 == key then (p.1, p.2 + 1) else p)
  else acc ++ [(key, 1)]

/-- Lookup in the `reportMap` built by `analyzeComponents` (lines 242-245):
`Map.set` overwrites, so for a duplicated path the last report wins. -/
def findReportByPath (frs : List FileReport) (path : String) : Option FileReport :=
  frs.reverse.find? (fun fr => fr.path == path)

/-- Size of the `Set` of distinct violation line numbers of a report
(lines 263-268). -/
def distinctLines (violations : List (String × List Violation)) : Nat :=
  ((violations.foldl (fun acc p => acc ++ p.2.map (fun v => v.line)) []).foldl
    (fun acc n => if acc.contains n then acc else acc ++ [n]) []).length

/-- Token coverage computed from a file's `FileReport` (lines 258-280):
distinct violating lines against total lines, as a percentage rounded to two
decimals. -/
def tokenCoverageOf (fr : FileReport) (totalLines : Nat) : TokenCoverage :=
  let violationLines := distinctLines fr.violations
  { score :=
      if totalLines > 0 then
        (jsRound ((((totalLines : Rat) - violationLines) / totalLines) * 10000) : Rat) / 100
      else 100
    totalLines := totalLines
    violationLines := violationLines
    violations := fr.violations.map (fun p => (p.1, p.2.length))
    totalViolations := fr.totalViolations }

/-- Ascending order on compliance scores, used by the final
`sort((a, b) => a.complianceScore - b.complianceScore)` (line 295). -/
def scoreLE (a b : ComponentApiReport) : Prop := a.complianceScore ≤ b.complianceScore

instance : DecidableRel scoreLE := fun a b =>
  inferInstanceAs (Decidable (a.complianceScore ≤ b.complianceScore))

instance : IsTotal ComponentApiReport scoreLE :=
  ⟨fun a b => Int.le_total a.complianceScore b.complianceScore⟩

instance : IsTrans ComponentApiReport scoreLE := ⟨fun _ _ _ h h' => le_trans h h'⟩

/-- Embeds the per-file loop of `analyzeComponents` (lines 247-292):
compute the path relative to the scan root (`rel` is the `node:path.relative`
oracle), skip files outside every configured component directory, skip files
whose absolute path does not end in `".tsx"`, run `analyzeComponent` (with
`probesOf content` the regex-probe results on that content), attach token
coverage from the matching `FileReport` if any, and collect the reports in
file order. -/
def analyzeLoop (probesOf : String → ContentProbes) (rel : String → String → String)
    (frs : List FileReport) (scanDir : String) (cfg : ComponentApiConfig) :
    List (String × String) → List ComponentApiReport
  | [] => []
  | (filePath, content) :: rest =>
    if !(cfg.directories.any (fun dir => jsStartsWith (rel scanDir filePath) dir)) then
      analyzeLoop probesOf rel frs scanDir cfg rest
    else if !(jsEndsWith filePath ".tsx") then
      analyzeLoop probesOf rel frs scanDir cfg rest
    else
      match analyzeComponent (probesOf content) (rel scanDir filePath) cfg with
      | none => analyzeLoop probesOf rel frs scanDir cfg rest
      | some report =>
        (match findReportByPath frs (rel scanDir filePath) with
         | some fr => { report with tokenCoverage := tokenCoverageOf fr (jsSplitNl content).length }
         | none =>
           { report with
               tokenCoverage :=
                 { score := 100, totalLines := (jsSplitNl content).length, violationLines := 0,
                   violations := [], totalViolations := 0 } }) ::
          analyzeLoop probesOf rel frs scanDir cfg rest

/-- The summary block of `analyzeComponents` (lines 297-323). -/
def buildComponentSummary (cfg : ComponentApiConfig) (components : List ComponentApiReport) :
    ComponentApiSummary :=
  { totalComponents := components.length
    byLocation := components.foldl (fun acc c => bumpCount acc c.location) []
    usesCVA := (components.filter (fun c => c.usesCVA)).length
    usesRadix := (components.filter (fun c => c.usesRadix)).length
    hasClassName := (components.filter (fun c => c.hasClassName)).length
    hasAsChild := (components.filter (fun c => c.hasAsChild)).length
    usesCompoundVariants := (components.filter (fun c => c.usesCompoundVariants)).length
    correctApiNaming :=
      (components.filter
        (fun c => !(c.variantProps.any (fun p => cfg.api.forbiddenProps.contains p)))).length
    correctSizeValues :=
      (components.filter
        (fun c => !(c.sizeValues.any (fun v => cfg.api.forbiddenSizes.contains v)))).length
    avgComplianceScore :=
      if components.length > 0 then
        jsRound (((components.foldl (fun s c => s + c.complianceScore) 0 : Int) : Rat) /
          (components.length : Rat))
      else 0
    compliantCount := (components.filter (fun c => c.complianceScore ≥ 80)).length
    avgTokenScore :=
      if components.length > 0 then
        (jsRound ((components.foldl (fun s c => s + c.tokenCoverage.score) 0 /
          (components.length : Rat)) * 100) : Rat) / 100
      else 100
    tokenCompliantCount := (components.filter (fun c => c.tokenCoverage.totalViolations == 0)).length }

/-- Embeds `analyzeComponents` (lines 210-326): the disabled early return,
the per-file loop, the ascending sort by compliance score, and the summary. -/
def analyzeComponents (probesOf : String → ContentProbes) (rel : String → String → String)
    (fileReports : List FileReport) (fileContents : List (String × String))
    (scanDir : String) (cfg : ComponentApiConfig) :
    ComponentApiSummary × List ComponentApiReport :=
  if !cfg.enabled then
    ({ totalComponents := 0, byLocation := [], usesCVA := 0, usesRadix := 0, hasClassName := 0,
       hasAsChild := 0, usesCompoundVariants := 0, correctApiNaming := 0, correctSizeValues := 0,
       avgComplianceScore := 0, compliantCount := 0, avgTokenScore := 100,
       tokenCompliantCount := 0 }, [])
  else
    let components :=
      (analyzeLoop probesOf rel fileReports scanDir cfg fileContents).insertionSort scoreLE
    (buildComponentSummary cfg components, components)

theorem analyzeLoop_filter_tsx (probesOf : String → ContentProbes)
    (rel : String → String → String) (frs : List FileReport) (scanDir : String)
    (cfg : ComponentApiConfig) :
    ∀ fileContents : List (String × String),
      analyzeLoop probesOf rel frs scanDir cfg
        (fileContents.filter (fun fc => jsEndsWith fc.1 ".tsx")) =
      analyzeLoop probesOf rel frs scanDir cfg fileContents
  | [] => rfl
  | (filePath, content) :: rest => by
    have ih := analyzeLoop_filter_tsx probesOf rel frs scanDir cfg rest
    by_cases htsx : jsEndsWith filePath ".tsx" = true
    · rw [List.filter_cons_of_pos (by simpa using htsx)]
      show analyzeLoop probesOf rel frs scanDir cfg
        ((filePath, content) :: rest.filter (fun fc => jsEndsWith fc.1 ".tsx")) = _
      simp only [analyzeLoop, ih]
    · rw [List.filter_cons_of_neg (by simpa using htsx)]
      rw [ih]
      show _ = analyzeLoop probesOf rel frs scanDir cfg ((filePath, content) :: rest)
      simp only [analyzeLoop, htsx]
      split <;> simp

/-- Claim C10: files whose path does not end in `".tsx"` contribute nothing
to component analysis — removing every non-`.tsx` entry from the scanned file
set leaves the output of `analyzeComponents` (components and summary)
unchanged, regardless of component directories, exports, or configuration. -/
theorem c10_only_tsx_files_analyzed :
    ∀ (probesOf : String → ContentProbes) (rel : String → String → String)
      (fileReports : List FileReport) (fileContents : List (String × String))
      (scanDir : String) (cfg : ComponentApiConfig),
      analyzeComponents probesOf rel fileReports
        (fileContents.filter (fun fc => jsEndsWith fc.1 ".tsx")) scanDir cfg =
      analyzeComponents probesOf rel fileReports fileContents scanDir cfg := by
  intro probesOf rel fileReports fileContents scanDir cfg
  unfold analyzeComponents
  rw [analyzeLoop_filter_tsx]

-- ============================================================
-- Migration analyzer (src/migration-analyzer.ts)
-- ============================================================

/-- Embeds `MigrationComplexity` of `types.ts`. -/
inductive MigrationComplexity where
  | simple : MigrationComplexity
  | moderate : MigrationComplexity
  | complex : MigrationComplexity
deriving Repr, DecidableEq

/-- The index of a complexity in the sort order
`complexityOrder = ["simple", "moderate", "complex"]` (lines 230-237). -/
def complexityIndex : MigrationComplexity → Nat
  | .simple => 0
  | .moderate => 1
  | .complex => 2

/-- Embeds `MigrationMapping` of `types.ts`. -/
structure MigrationMapping where
  source : String
  sourceImportPattern : String
  target : String
  targetImportPath : String
  complexity : MigrationComplexity
  guidelines : String
  propMapping : Option String
  breakingChanges : Option (List String)
  effort : Option String
deriving Repr, DecidableEq

/-- Embeds `MigrationFileUsage` of `types.ts`. -/
structure MigrationFileUsage where
  path : String
  importLines : List Nat
  usageLines : List Nat
  totalOccurrences : Nat
deriving Repr, DecidableEq

/-- Embeds `MigrationComponentReport` of `types.ts`. -/
structure MigrationComponentReport where
  source : String
  target : String
  targetImportPath : String
  complexity : MigrationComplexity
  guidelines : String
  propMapping : Option String
  breakingChanges : List String
  effort : Option String
  totalUsages : Nat
  filesAffected : Nat
  files : List MigrationFileUsage
  migrated : Bool
deriving Repr, DecidableEq

/-- The sentinel import pattern for native HTML elements (line 41). -/
def HTML_NATIVE_PATTERN : String := "html-native"

/-- Model of `String.prototype.toLowerCase` (ASCII; the configured component
names in the claims are ASCII). -/
def jsToLowercase (s : String) : String := String.mk (s.data.map Char.toLower)

/-- First `g`-replace of `toKebabCase` (line 304):
`replace(/([a-z0-9])([A-Z])/g, "$1-$2")`, scanning left to right without
rescanning replaced text. -/
def kebab1 : List Char → List Char
  | [] => []
  | [a] => [a]
  | a :: b :: rest =>
    if (a.isLower || a.isDigit) && b.isUpper then a :: '-' :: b :: kebab1 rest
    else a :: kebab1 (b :: rest)

/-- Second `g`-replace of `toKebabCase` (line 305):
`replace(/([A-Z])([A-Z][a-z])/g, "$1-$2")`. -/
def kebab2 : List Char → List Char
  | [] => []
  | [a] => [a]
  | [a, b] => [a, b]
  | a :: b :: c :: rest =>
    if a.isUpper && b.isUpper && c.isLower then a :: '-' :: b :: c :: kebab2 rest
    else a :: kebab2 (b :: c :: rest)

/-- Embeds `toKebabCase` (lines 302-307). -/
def toKebabCase (s : String) : String :=
  String.mk ((kebab2 (kebab1 s.data)).map Char.toLower)

/-- Tail of a JSX-tag match: the (escaped, hence literal) component name
followed by whitespace, `/`, `>`, or the end of the line — the
`NAME(?:[\s/>]|$)` part of the `jsxRegex` of line 78. -/
def matchNameTail (name cs : List Char) : Bool :=
  name.isPrefixOf cs &&
    (match cs.drop name.length with
     | [] => true
     | c :: _ => c.isWhitespace || c == '/' || c == '>')

/-- Does a match of `</?NAME(?:[\s/>]|$)` start at the head of `cs`? -/
def jsxMatchAt (name : List Char) : List Char → Bool
  | '<' :: rest =>
    (match rest with
     | '/' :: r => matchNameTail name r
     | _ => false) || matchNameTail name rest
  | _ => false

/-- Does `p` hold at some suffix of the list (regex search at any start)? -/
def scanAny (p : List Char → Bool) : List Char → Bool
  | [] => p []
  | c :: rest => p (c :: rest) || scanAny p rest

/-- The compiled `jsxRegex` (line 78) / `templateRegex` (lines 81-84) test on
one line, for a given tag name. -/
def jsxTest (name line : String) : Bool := scanAny (jsxMatchAt name.data) line.data

/-- Embeds the detection result record (lines 26-29). -/
structure DetectedUsage where
  importLines : List Nat
  usageLines : List Nat
deriving Repr, DecidableEq

/-- Embeds the line loop of `detectComponentUsage` (lines 88-119): skip
comment lines; on an import match (checked only for non-native mappings and
modelled by the `importTest`/`namedImportTest` oracles for the two compiled
regexes of lines 58-74) record the 1-based line and `continue`; otherwise record a
JSX-tag usage and, when the kebab-cased name differs from the lowercase name,
also a template-tag usage. -/
def collectUsage (isNativeHtml : Bool) (importTest namedImportTest : String → Bool)
    (componentName kebabName : String) (useTemplate : Bool) :
    Nat → List String → List Nat × List Nat
  | _, [] => ([], [])
  | i, line :: rest =>
    let (imps, usgs) := collectUsage isNativeHtml importTest namedImportTest
      componentName kebabName useTemplate (i + 1) rest
    if isCommentStart (jsTrim line) then (imps, usgs)
    else if !isNativeHtml && (importTest line || namedImportTest line) then
      ((i + 1) :: imps, usgs)
    else
      ((imps : List Nat),
        (if jsxTest componentName line then [i + 1] else []) ++
          (if useTemplate && jsxTest kebabName line then [i + 1] else []) ++ usgs)

/-- The loop of `detectComponentUsage` applied to a whole content, with the
kebab name and template condition computed as in lines 81-84. -/
def collectFor (importTest namedImportTest : String → Bool)
    (content componentName importPattern : String) : List Nat × List Nat :=
  collectUsage (importPattern == HTML_NATIVE_PATTERN) importTest namedImportTest
    componentName (toKebabCase componentName)
    (toKebabCase componentName != jsToLowercase componentName) 0 (jsSplitNl content)

/-- The keep-condition of lines 121-129:
`componentName[0] === componentName[0].toUpperCase()`.  True for uppercase
letters and for any character unchanged by `toUpperCase` (digits, symbols).
An empty component name would make the JS throw when reading `[0]`; the
claims quantify over configured (non-empty) names, and the model keeps
usages in that unreachable case. -/
def firstCharUpperSame (s : String) : Bool :=
  match s.data with
  | [] => true
  | c :: _ => c.toUpper == c

/-- Embeds `detectComponentUsage` (lines 43-132): run the line loop; a native
mapping counts as imported (`hasImport` starts true); when no import was
found but usages were, discard them unless the first character of the name
equals its own uppercase form. -/
def detectComponentUsage (importTest namedImportTest : String → Bool)
    (content componentName importPattern : String) : DetectedUsage :=
  let importLines := (collectFor importTest namedImportTest content componentName importPattern).1
  let usageLines := (collectFor importTest namedImportTest content componentName importPattern).2
  let hasImport := (importPattern == HTML_NATIVE_PATTERN) || !importLines.isEmpty
  if !hasImport && usageLines.length > 0 then
    if !(firstCharUpperSame componentName) then { importLines := [], usageLines := [] }
    else { importLines := importLines, usageLines := usageLines }
  else { importLines := importLines, usageLines := usageLines }

/-- Number of occurrences (import lines plus usage lines) that
`detectComponentUsage` finds for a mapping in one file's content. -/
def occCount (importTestOf namedImportTestOf : String → String → String → Bool)
    (m : MigrationMapping) (fc : String × String) : Nat :=
  (detectComponentUsage (importTestOf m.source m.sourceImportPattern)
    (namedImportTestOf m.source m.sourceImportPattern) fc.2 m.source
    m.sourceImportPattern).importLines.length +
  (detectComponentUsage (importTestOf m.source m.sourceImportPattern)
    (namedImportTestOf m.source m.sourceImportPattern) fc.2 m.source
    m.sourceImportPattern).usageLines.length

/-- The per-file loop of `analyzeMigration` for one mapping (lines 177-203,
without the native-element roll-up, which feeds only the separate
`legacyHtml` report): detect usage in every file, `continue` on zero
occurrences, and record a `MigrationFileUsage` otherwise.  `importTestOf` and
`namedImportTestOf` are the oracles for the two compiled import regexes,
applied to the mapping's source name and import pattern. -/
def mappingFilesLoop (importTestOf namedImportTestOf : String → String → String → Bool)
    (rel : String → String → String) (scanDir : String) (m : MigrationMapping) :
    List (String × String) → List MigrationFileUsage
  | [] => []
  | fc :: rest =>
    let usage := detectComponentUsage (importTestOf m.source m.sourceImportPattern)
      (namedImportTestOf m.source m.sourceImportPattern) fc.2 m.source m.sourceImportPattern
    let totalOccurrences := usage.importLines.length + usage.usageLines.length
    (if totalOccurrences == 0 then []
     else
       [{ path := rel scanDir fc.1, importLines := usage.importLines,
          usageLines := usage.usageLines, totalOccurrences := totalOccurrences }]) ++
      mappingFilesLoop importTestOf namedImportTestOf rel scanDir m rest

/-- Descending order on per-file occurrence counts, used by
`files.sort((a, b) => b.totalOccurrences - a.totalOccurrences)` (line 210). -/
def fileUsageGE (a b : MigrationFileUsage) : Prop := b.totalOccurrences ≤ a.totalOccurrences

instance : DecidableRel fileUsageGE := fun a b =>
  inferInstanceAs (Decidable (b.totalOccurrences ≤ a.totalOccurrences))

instance : IsTotal MigrationFileUsage fileUsageGE :=
  ⟨fun a b => (Nat.le_total b.totalOccurrences a.totalOccurrences).imp id id⟩

instance : IsTrans MigrationFileUsage fileUsageGE := ⟨fun _ _ _ h h' => Nat.le_trans h' h⟩

/-- Builds one `MigrationComponentReport` for a mapping (lines 172-227):
collect per-file usages, total them, mark `migrated` when the total is zero,
and sort the file list by occurrences descending. -/
def buildComponentReport (importTestOf namedImportTestOf : String → String → String → Bool)
    (rel : String → String → String) (scanDir : String)
    (fileContents : List (String × String)) (m : MigrationMapping) :
    MigrationComponentReport :=
  let files := mappingFilesLoop importTestOf namedImportTestOf rel scanDir m fileContents
  let totalUsages := (files.map (fun f => f.totalOccurrences)).sum
  let sortedFiles := files.insertionSort fileUsageGE
  { source := m.source
    target := m.target
    targetImportPath := m.targetImportPath
    complexity := m.complexity
    guidelines := m.guidelines
    propMapping := m.propMapping
    breakingChanges := m.breakingChanges.getD []
    effort := m.effort
    totalUsages := totalUsages
    filesAffected := sortedFiles.length
    files := sortedFiles
    migrated := totalUsages == 0 }

/-- The sort comparator of lines 231-237:
to-migrate first, then ascending complexity, then usages descending. -/
def migCompare (a b : MigrationComponentReport) : Int :=
  if a.migrated ≠ b.migrated then (if a.migrated then 1 else -1)
  else if complexityIndex a.complexity ≠ complexityIndex b.complexity then
    (complexityIndex a.complexity : Int) - (complexityIndex b.complexity : Int)
  else (b.totalUsages : Int) - (a.totalUsages : Int)

/-- The (total pre)order induced by the comparator: `a` may be placed before
`b` exactly when the comparator is non-positive. -/
def migLE (a b : MigrationComponentReport) : Prop := migCompare a b ≤ 0

instance : DecidableRel migLE := fun a b => inferInstanceAs (Decidable (migCompare a b ≤ 0))

theorem migLE_iff (a b : MigrationComponentReport) :
    migLE a b ↔
      (a.migrated = false ∧ b.migrated = true) ∨
      (a.migrated = b.migrated ∧
        (complexityIndex a.complexity < complexityIndex b.complexity ∨
          (complexityIndex a.complexity = complexityIndex b.complexity ∧
            b.totalUsages ≤ a.totalUsages))) := by
  unfold migLE migCompare
  by_cases hm : a.migrated = b.migrated
  · by_cases hc : complexityIndex a.complexity = complexityIndex b.complexity
    · simp [hm, hc]
    · simp [hm, hc]
      omega
  · cases hA : a.migrated <;> cases hB : b.migrated <;> simp_all

instance : IsTotal MigrationComponentReport migLE := by
  constructor
  intro a b
  rw [migLE_iff, migLE_iff]
  cases hA : a.migrated <;> cases hB : b.migrated <;> simp_all <;> omega

instance : IsTrans MigrationComponentReport migLE := by
  constructor
  intro a b c hab hbc
  rw [migLE_iff] at hab hbc ⊢
  rcases hab with ⟨ha, hb⟩ | ⟨hm, h⟩ <;> rcases hbc with ⟨hb', hc⟩ | ⟨hm', h'⟩
  · rw [hb] at hb'
    cases hb'
  · exact Or.inl ⟨ha, hm' ▸ hb⟩
  · exact Or.inl ⟨hm.trans hb', hc⟩
  · exact Or.inr ⟨hm.trans hm', by omega⟩

/-- Embeds the components-list portion of `analyzeMigration` (lines 167-237):
build one report per configured mapping, in configuration order, then sort
with the comparator (the `legacyHtml` roll-up and the summary block consume
this list and add no further ordering). -/
def analyzeMigrationComponents (importTestOf namedImportTestOf : String → String → String → Bool)
    (rel : String → String → String) (scanDir : String)
    (fileContents : List (String × String)) (mappings : List MigrationMapping) :
    List MigrationComponentReport :=
  (mappings.map
    (buildComponentReport importTestOf namedImportTestOf rel scanDir fileContents)).insertionSort
    migLE

theorem mappingFilesLoop_sum (importTestOf namedImportTestOf : String → String → String → Bool)
    (rel : String → String → String) (scanDir : String) (m : MigrationMapping) :
    ∀ fileContents : List (String × String),
      ((mappingFilesLoop importTestOf namedImportTestOf rel scanDir m fileContents).map
        (fun f => f.totalOccurrences)).sum =
      (fileContents.map (occCount importTestOf namedImportTestOf m)).sum
  | [] => rfl
  | fc :: rest => by
    have ih := mappingFilesLoop_sum importTestOf namedImportTestOf rel scanDir m rest
    simp only [mappingFilesLoop, List.map_cons, List.sum_cons, List.map_append, List.sum_append]
    split
    · rename_i h0
      have hz := eq_of_beq h0
      simp only [List.map_nil, List.sum_nil, ih, occCount]
      omega
    · simp only [List.map_cons, List.map_nil, List.sum_cons, List.sum_nil, ih, occCount]
      omega

theorem buildComponentReport_totalUsages
    (importTestOf namedImportTestOf : String → String → String → Bool)
    (rel : String → String → String) (scanDir : String)
    (fileContents : List (String × String)) (m : MigrationMapping) :
    (buildComponentReport importTestOf namedImportTestOf rel scanDir fileContents m).totalUsages =
      (fileContents.map (occCount importTestOf namedImportTestOf m)).sum := by
  simp only [buildComponentReport]
  exact mappingFilesLoop_sum importTestOf namedImportTestOf rel scanDir m fileContents

/-- Claim C8: in the migration analysis output, every component report comes
from a configured mapping with `totalUsages` equal to the sum over all files
of its import-line and usage-line counts, its `migrated` flag is true exactly
when that total is zero, and the sorted output places every migrated mapping
after every pending one, with pending mappings ordered by ascending
complexity tier and then by total usages descending. -/
theorem c8_migrated_iff_zero_usages_and_sort_order :
    ∀ (importTestOf namedImportTestOf : String → String → String → Bool)
      (rel : String → String → String) (scanDir : String)
      (fileContents : List (String × String)) (mappings : List MigrationMapping),
      (∀ c ∈ analyzeMigrationComponents importTestOf namedImportTestOf rel scanDir
          fileContents mappings,
        ∃ m ∈ mappings,
          c = buildComponentReport importTestOf namedImportTestOf rel scanDir fileContents m ∧
          c.totalUsages = (fileContents.map (occCount importTestOf namedImportTestOf m)).sum ∧
          (c.migrated = true ↔ c.totalUsages = 0)) ∧
      (analyzeMigrationComponents importTestOf namedImportTestOf rel scanDir
          fileContents mappings).Pairwise (fun a b =>
        (a.migrated = true → b.migrated = true) ∧
        (a.migrated = false → b.migrated = false →
          (complexityIndex a.complexity < complexityIndex b.complexity ∨
            (complexityIndex a.complexity = complexityIndex b.complexity ∧
              b.totalUsages ≤ a.totalUsages)))) := by
  intro importTestOf namedImportTestOf rel scanDir fileContents mappings
  constructor
  · intro c hc
    have hmem : c ∈ mappings.map
        (buildComponentReport importTestOf namedImportTestOf rel scanDir fileContents) :=
      (List.mem_insertionSort migLE).1 hc
    obtain ⟨m, hm, rfl⟩ := List.mem_map.1 hmem
    refine ⟨m, hm, rfl,
      buildComponentReport_totalUsages importTestOf namedImportTestOf rel scanDir fileContents m,
      ?_⟩
    simp [buildComponentReport]
  · have hs :
        (analyzeMigrationComponents importTestOf namedImportTestOf rel scanDir
          fileContents mappings).Pairwise migLE :=
      List.sorted_insertionSort migLE _
    refine hs.imp ?_
    intro a b hab
    rw [migLE_iff] at hab
    constructor
    · intro hA
      rcases hab with ⟨ha, _⟩ | ⟨hm, _⟩
      · rw [ha] at hA
        cases hA
      · rw [← hm]
        exact hA
    · intro _ hB
      rcases hab with ⟨_, hb⟩ | ⟨_, h⟩
      · rw [hb] at hB
        cases hB
      · exact h

-- ============================================================
-- Claim C9: the missing-import usage guard and the native sentinel
-- ============================================================

/-- The specification's predicate, stated from its words: the component
identifier starts with an uppercase letter. -/
def specStartsWithUppercaseLetter (s : String) : Bool :=
  match s.data with
  | [] => false
  | c :: _ => c.isUpper

/-- Claim C9 counterexample: for the mapping source `"-el"` — which does not
start with an uppercase letter — a file with a tag usage and no detected
module reference keeps its usage lines instead of returning empty lists: the
code's keep-condition compares the first character with its own uppercase
form and `"-"` is unchanged by `toUpperCase`. -/
theorem c9_counterexample_nonletter_usages_kept :
    specStartsWithUppercaseLetter "-el" = false ∧
    detectComponentUsage (fun _ => false) (fun _ => false) "<-el>" "-el" "@x/el" =
      { importLines := [], usageLines := [1] } ∧
    detectComponentUsage (fun _ => false) (fun _ => false) "<-el>" "-el" "@x/el" ≠
      { importLines := [], usageLines := [] } := by
  refine ⟨rfl, by decide, by decide⟩

/-- Claim C9 as amended: when the mapping's import pattern is the native-HTML
sentinel the component is always treated as imported and the collected tag
usages are returned unchanged (never discarded); for a non-native mapping in
which no import line was detected but tag usages were found, the detection
returns empty lists exactly unless the first character of the component
identifier equals its own uppercase form — which holds for uppercase letters
but also for digits and symbols, not only for uppercase letters as the
specification says. -/
theorem c9_usage_guard :
    ∀ (importTest namedImportTest : String → Bool) (content componentName importPattern : String),
      (importPattern = HTML_NATIVE_PATTERN →
        detectComponentUsage importTest namedImportTest content componentName importPattern =
          { importLines := (collectFor importTest namedImportTest content componentName
              importPattern).1,
            usageLines := (collectFor importTest namedImportTest content componentName
              importPattern).2 }) ∧
      (importPattern ≠ HTML_NATIVE_PATTERN →
        (collectFor importTest namedImportTest content componentName importPattern).1 = [] →
        (collectFor importTest namedImportTest content componentName importPattern).2 ≠ [] →
        firstCharUpperSame componentName = false →
        detectComponentUsage importTest namedImportTest content componentName importPattern =
          { importLines := [], usageLines := [] }) ∧
      (firstCharUpperSame componentName = true →
        detectComponentUsage importTest namedImportTest content componentName importPattern =
          { importLines := (collectFor importTest namedImportTest content componentName
              importPattern).1,
            usageLines := (collectFor importTest namedImportTest content componentName
              importPattern).2 }) := by
  intro importTest namedImportTest content componentName importPattern
  refine ⟨?_, ?_, ?_⟩
  · intro hnat
    unfold detectComponentUsage
    have hb : (importPattern == HTML_NATIVE_PATTERN) = true := by
      simp [hnat]
    simp [hb]
  · intro hnat himp husg hfirst
    unfold detectComponentUsage
    have hb : (importPattern == HTML_NATIVE_PATTERN) = false := by
      simp [hnat]
    simp [hb, himp, hfirst, List.isEmpty_iff, husg, List.length_pos]
  · intro hfirst
    unfold detectComponentUsage
    split
    · rename_i hcond
      rw [hfirst] at hcond
      cases hcond
    · dsimp only
      split <;> rfl

/-- Witness for the amended C9: a native-HTML mapping keeps its (lowercase)
tag usages, while a lowercase-initial component with tag usages but no import
has its usages discarded. -/
theorem c9_usage_guard_witness :
    detectComponentUsage (fun _ => false) (fun _ => false) "<il>" "il" "html-native" =
      { importLines := [], usageLines := [1] } ∧
    detectComponentUsage (fun _ => false) (fun _ => false) "<el>" "el" "@x/el" =
      { importLines := [], usageLines := [] } := by
  constructor
  · have h := (c9_usage_guard (fun _ => false) (fun _ => false) "<il>" "il" "html-native").1 rfl
    rw [h]
    decide
  · exact (c9_usage_guard (fun _ => false) (fun _ => false) "<el>" "el" "@x/el").2.1
      (by decide) (by decide) (by decide) (by decide)
